import Mathlib

/-!
# igdb: request building and error propagation of the resource services

A shallow embedding of `testdummy.go` (the `TestDummyService` operations
`Get`, `List`, `Index`, `Count`, `Fields`) and of `pulsegroup.go` (the client
operations `GetPulseGroup`, `GetPulseGroups`, `SearchPulseGroups`).

Conventions of the embedding:

* a Go slice is a `Slice`: either `nil` or a backing list, so that `nil` and
  the empty non-nil slice stay distinct;
* a Go pointer `*T` is a `Ptr T`, that is `Option T` with `none` for `nil`;
* a Go `error` is an `Option Error`, `none` for `nil`;
* Go `int` values are `Int` (no arithmetic is performed on them);
* every call of the HTTP client is appended to a call log that each operation
  returns next to its Go result, so that "the client is not invoked" is the
  statement that the log is empty.
-/

namespace igdb

/-! ## Go values -/

/-- Go slice value: `nil`, or a non-nil slice with the listed elements. -/
inductive Slice (α : Type) where
  | nil : Slice α
  | mk (elems : List α) : Slice α
  deriving DecidableEq

namespace Slice

variable {α : Type}

/-- Elements of a slice in order; `nil` has none. -/
def toList : Slice α → List α
  | nil => []
  | mk xs => xs

/-- Go builtin `len(s)`. -/
def len (s : Slice α) : Nat := s.toList.length

/-- Go comparison `s != nil`. -/
def notNil : Slice α → Bool
  | nil => false
  | mk _ => true

/-- Go builtin `append(s, x)`: the elements of `s` followed by `x`. -/
def append (s : Slice α) (x : α) : Slice α := mk (s.toList ++ [x])

/-- Go index expression `s[i]`; `none` stands for the index-out-of-range panic. -/
def index (s : Slice α) (i : Nat) : Option α := s.toList.get? i

end Slice

/-- Go pointer `*T`: `none` is the nil pointer. -/
abbrev Ptr (α : Type) := Option α

/-- Go `strconv.Itoa`: decimal representation of an integer. -/
def strconv.Itoa : Int → String
  | Int.ofNat n => Nat.repr n
  | Int.negSucc n => "-" ++ Nat.repr (n + 1)

/-- Go `strings.Join`. -/
def strings.Join (elems : Slice String) (sep : String) : String :=
  String.intercalate sep elems.toList

/-- Package `sliceconv`, function `Itoa`: starts from a nil slice and appends
`strconv.Itoa(i)` for each element. -/
def sliceconv.Itoa (ints : Slice Int) : Slice String :=
  ints.toList.foldl (fun str i => str.append (strconv.Itoa i)) Slice.nil

/-- Go formatting verb `%v` applied to an `[]int`. -/
def fmtInts (ids : Slice Int) : String :=
  "[" ++ String.intercalate " " (ids.toList.map strconv.Itoa) ++ "]"

/-! ## Errors -/

/-- Modelled from the spec: the error values. The declarations of the sentinels
are not among the sources; the spec fixes the set (negative identifier, empty
identifier list, malformed JSON, out-of-range pagination option, no results).
`other` is any further error value that wraps nothing (a transport failure),
`withMessage` is the annotated error built by `errors.Wrap` of
`github.com/pkg/errors`, which remembers its cause. -/
inductive Error where
  | ErrNegativeID : Error
  | ErrEmptyIDs : Error
  | errInvalidJSON : Error
  | ErrOutOfRange : Error
  | ErrNoResults : Error
  | other (msg : String) : Error
  | withMessage (cause : Error) (msg : String) : Error
  deriving DecidableEq

/-- Root cause of a non-nil error: unwrap as long as the error has a cause. -/
def Error.Cause : Error → Error
  | Error.withMessage c _ => c.Cause
  | e => e

/-- Package `errors`, function `Wrap` (and `Wrapf` once the message is
formatted): nil stays nil, any other error is annotated with the message. -/
def errors.Wrap (err : Option Error) (message : String) : Option Error :=
  match err with
  | none => none
  | some e => some (Error.withMessage e message)

/-- Package `errors`, function `Cause`. -/
def errors.Cause (err : Option Error) : Option Error :=
  err.map Error.Cause

/-- Result of a Go function returning `(T, error)` that may also panic. -/
inductive Outcome (α : Type) where
  | ret (val : α) (err : Option Error) : Outcome α
  | panic : Outcome α
  deriving DecidableEq

/-! ## testdummy.go -/

namespace testdummy

set_option linter.dupNamespace false in
/-- Record `TestDummy`. `FloatValue` is kept as the bit pattern of the
`float64`; the services never compute with it. -/
structure TestDummy where
  ID : Int
  BoolValue : Bool
  CreatedAt : Int
  EnumTest : Int
  FloatValue : Nat
  Game : Int
  IntegerArray : Slice Int
  IntegerValue : Int
  Name : String
  NewIntegerValue : Int
  Private : Bool
  Slug : String
  StringArray : Slice String
  TestDummies : Slice Int
  TestDummy : Int
  UpdatedAt : Int
  URL : String
  User : Int
  deriving DecidableEq

/-- Type `endpoint` of the service (its declaration is not among the sources). -/
abbrev endpoint := String

/-- Filter operators named by the sources and their tests. -/
inductive operator where
  | OpEquals : operator
  | OpContainsAtLeast : operator
  | OpGreaterThan : operator
  deriving DecidableEq

/-- Modelled from the spec: the functional option type (`Option` in
testdummy.go, `FuncOption` in the tests), whose declaration and builders are
not among the sources. An option is represented by the builder call that made
it: a filter, a field selection or a pagination setting. -/
inductive FuncOption where
  | SetFilter (field : String) (op : operator) (vals : Slice String) : FuncOption
  | SetFields (fields : Slice String) : FuncOption
  | SetLimit (lim : Int) : FuncOption
  | SetOffset (off : Int) : FuncOption
  deriving DecidableEq

/-- The HTTP client as the services see it. `client.go` is not among the
sources, so the services are verified against every client: `get end &dum opts`
is given by the value it leaves in `dum` (nil before the call) and the error it
returns, `getCount` and `getFields` by their two results. -/
structure Client where
  get : endpoint → Slice FuncOption → Slice (Ptr TestDummy) × Option Error
  getCount : endpoint → Slice FuncOption → Int × Option Error
  getFields : endpoint → Slice String × Option Error

/-- One invocation of a client method, with its arguments. -/
inductive Call where
  | get (e : endpoint) (opts : Slice FuncOption) : Call
  | getCount (e : endpoint) (opts : Slice FuncOption) : Call
  | getFields (e : endpoint) : Call
  deriving DecidableEq

/-- The call log: the client invocations made so far, oldest first. -/
abbrev Log := List Call

/-- Invocation `c.get(end, &dum, opts...)`: the client's answer, and the log
extended with the call. -/
def Client.callGet (c : Client) (e : endpoint) (opts : Slice FuncOption) (log : Log) :
    (Slice (Ptr TestDummy) × Option Error) × Log :=
  (c.get e opts, log ++ [Call.get e opts])

/-- Invocation `c.getCount(end, opts...)`. -/
def Client.callGetCount (c : Client) (e : endpoint) (opts : Slice FuncOption) (log : Log) :
    (Int × Option Error) × Log :=
  (c.getCount e opts, log ++ [Call.getCount e opts])

/-- Invocation `c.getFields(end)`. -/
def Client.callGetFields (c : Client) (e : endpoint) (log : Log) :
    (Slice String × Option Error) × Log :=
  (c.getFields e, log ++ [Call.getFields e])

/-- Type `service`: the client and the endpoint of the resource. -/
structure service where
  client : Client
  end_ : endpoint

/-- Method `TestDummyService.Get`. -/
def TestDummyService.Get (ts : service) (id : Int) (opts : Slice FuncOption) :
    Outcome (Ptr TestDummy) × Log :=
  if id < 0 then
    (Outcome.ret none (some Error.ErrNegativeID), [])
  else
    let opts1 := opts.append
      (FuncOption.SetFilter "id" operator.OpEquals (Slice.mk [strconv.Itoa id]))
    let r := ts.client.callGet ts.end_ opts1 []
    match r.1.2 with
    | some err =>
      (Outcome.ret none
        (errors.Wrap (some err) ("cannot get TestDummy with ID " ++ strconv.Itoa id)), r.2)
    | none =>
      match r.1.1.index 0 with
      | some p => (Outcome.ret p none, r.2)
      | none => (Outcome.panic, r.2)

/-- The loop `for _, id := range ids` of `List`: does some element make it
return `ErrNegativeID`? -/
def hasNegative : List Int → Bool
  | [] => false
  | id :: rest => if id < 0 then true else hasNegative rest

/-- Method `TestDummyService.List`. -/
def TestDummyService.List (ts : service) (ids : Slice Int) (opts : Slice FuncOption) :
    (Slice (Ptr TestDummy) × Option Error) × Log :=
  if ids.len < 1 then
    ((Slice.nil, some Error.ErrEmptyIDs), [])
  else if hasNegative ids.toList then
    ((Slice.nil, some Error.ErrNegativeID), [])
  else
    let opts1 := opts.append
      (FuncOption.SetFilter "id" operator.OpContainsAtLeast (sliceconv.Itoa ids))
    let r := ts.client.callGet ts.end_ opts1 []
    match r.1.2 with
    | some err =>
      ((Slice.nil,
        errors.Wrap (some err) ("cannot get TestDummies with IDs " ++ fmtInts ids)), r.2)
    | none => ((r.1.1, none), r.2)

/-- Method `TestDummyService.Index`. -/
def TestDummyService.Index (ts : service) (opts : Slice FuncOption) :
    (Slice (Ptr TestDummy) × Option Error) × Log :=
  let r := ts.client.callGet ts.end_ opts []
  match r.1.2 with
  | some err =>
    ((Slice.nil, errors.Wrap (some err) "cannot get index of TestDummies"), r.2)
  | none => ((r.1.1, none), r.2)

/-- Method `TestDummyService.Count`. -/
def TestDummyService.Count (ts : service) (opts : Slice FuncOption) :
    (Int × Option Error) × Log :=
  let r := ts.client.callGetCount ts.end_ opts []
  match r.1.2 with
  | some err => ((0, errors.Wrap (some err) "cannot count TestDummies"), r.2)
  | none => ((r.1.1, none), r.2)

/-- Method `TestDummyService.Fields`. -/
def TestDummyService.Fields (ts : service) :
    (Slice String × Option Error) × Log :=
  let r := ts.client.callGetFields ts.end_ []
  match r.1.2 with
  | some err => ((Slice.nil, errors.Wrap (some err) "cannot get TestDummy fields"), r.2)
  | none => ((r.1.1, none), r.2)

/-! ### The client pipeline, from the spec -/

/-- Modelled from the spec: the shape of a response body, as the spec's
classification table reads it (the decoder of client.go is not among the
sources): malformed or empty, an empty JSON array, or a well-formed payload. -/
inductive Body (α : Type) where
  | malformed : Body α
  | emptyArray : Body α
  | payload (v : α) : Body α
  deriving DecidableEq

/-- Modelled from the spec: the remote side of the pipeline (client.go is not
among the sources). The spec names the pagination options limit and offset and
gives no bounds, so the accepted ranges are parameters; the server sends one
body for each request. -/
structure Remote where
  limitOK : Int → Bool
  offsetOK : Int → Bool
  records : endpoint → Slice FuncOption → Body (List (Ptr TestDummy))
  count : endpoint → Slice FuncOption → Body Int
  fields : endpoint → Body (List String)

/-- Modelled from the spec: an out-of-range pagination option is a limit or an
offset outside the accepted range; no other option is one. -/
def Remote.outOfRange (r : Remote) : FuncOption → Bool
  | FuncOption.SetLimit lim => !r.limitOK lim
  | FuncOption.SetOffset off => !r.offsetOK off
  | _ => false

/-- Modelled from the spec: the response classification of `Client.get` for a
record list (client.go is not among the sources): a malformed or empty body is
the decode error, an empty array the no-results error, anything else the
decoded records. -/
def Remote.decodeRecords : Body (List (Ptr TestDummy)) → Slice (Ptr TestDummy) × Option Error
  | Body.malformed => (Slice.nil, some Error.errInvalidJSON)
  | Body.emptyArray => (Slice.nil, some Error.ErrNoResults)
  | Body.payload rs => (Slice.mk rs, none)

/-- Modelled from the spec: the response classification of `Client.getCount`
(client.go is not among the sources). -/
def Remote.decodeCount : Body Int → Int × Option Error
  | Body.malformed => (0, some Error.errInvalidJSON)
  | Body.emptyArray => (0, some Error.ErrNoResults)
  | Body.payload n => (n, none)

/-- Modelled from the spec: the response classification of `Client.getFields`
(client.go is not among the sources); by the service's test an empty array is
not an error here. -/
def Remote.decodeFields : Body (List String) → Slice String × Option Error
  | Body.malformed => (Slice.nil, some Error.errInvalidJSON)
  | Body.emptyArray => (Slice.nil, none)
  | Body.payload fs => (Slice.mk fs, none)

/-- Modelled from the spec: the request pipeline of the client (client.go is
not among the sources). Options that encode an out-of-range pagination value
are rejected before dispatch with `ErrOutOfRange`; otherwise the request is
sent and the response body classified. -/
def Remote.client (r : Remote) : Client :=
  { get := fun e opts =>
      if opts.toList.any r.outOfRange then (Slice.nil, some Error.ErrOutOfRange)
      else Remote.decodeRecords (r.records e opts),
    getCount := fun e opts =>
      if opts.toList.any r.outOfRange then (0, some Error.ErrOutOfRange)
      else Remote.decodeCount (r.count e opts),
    getFields := fun e => Remote.decodeFields (r.fields e) }

/-- A record used by the examples. -/
def sampleDummy : TestDummy :=
  { ID := 8, BoolValue := true, CreatedAt := 0, EnumTest := 1, FloatValue := 0, Game := 0,
    IntegerArray := Slice.nil, IntegerValue := 0, Name := "dummy", NewIntegerValue := 0,
    Private := false, Slug := "dummy", StringArray := Slice.nil, TestDummies := Slice.nil,
    TestDummy := 0, UpdatedAt := 0, URL := "", User := 0 }

/-- A client that answers every request with one record, count 100 and three
field names. -/
def okClient : Client :=
  { get := fun _ _ => (Slice.mk [some sampleDummy], none),
    getCount := fun _ _ => (100, none),
    getFields := fun _ => (Slice.mk ["name", "slug", "url"], none) }

/-- A client whose every request fails with the given error. -/
def failClient (e : Error) : Client :=
  { get := fun _ _ => (Slice.nil, some e),
    getCount := fun _ _ => (0, some e),
    getFields := fun _ => (Slice.nil, some e) }

/-- A remote for the examples: limits 1 to 50 and offsets 0 to 150 are
accepted, and every request is answered with the given bodies. -/
def sampleRemote (recs : Body (List (Ptr TestDummy))) (cnt : Body Int) : Remote :=
  { limitOK := fun lim => decide (1 ≤ lim ∧ lim ≤ 50),
    offsetOK := fun off => decide (0 ≤ off ∧ off ≤ 150),
    records := fun _ _ => recs,
    count := fun _ _ => cnt,
    fields := fun _ => Body.emptyArray }

end testdummy

/-! ## pulsegroup.go -/

namespace pulsegroup

/-- Record `PulseGroup`; the types `URL` and `Tag` (declared outside the
sources) are kept as a string and an integer. -/
structure PulseGroup where
  ID : Int
  Name : String
  Slug : String
  URL : String
  CreatedAt : Int
  UpdatedAt : Int
  Tags : Slice Int
  Pulses : Slice Int
  Game : Slice Int
  deriving DecidableEq

/-- Modelled from the spec: the option container of the package (type
`options`, `newOpt`, and `Values.Encode`; options.go is not among the sources):
a structure that accumulates query parameters and can be URL-encoded. The
container type, the fresh container and its encoding are parameters. -/
structure OptEnv where
  options : Type
  newOpt : options
  Encode : options → String

/-- Type `OptionFunc`: a function that updates the option container in place. -/
abbrev OptionFunc (env : OptEnv) := env.options → env.options

/-- The loop `for _, optFunc := range opts { optFunc(&opt) }` run on a fresh
container. -/
def applyOpts (env : OptEnv) (opts : Slice (OptionFunc env)) : env.options :=
  opts.toList.foldl (fun opt optFunc => optFunc opt) env.newOpt

/-- Modelled from the spec: helper `intsToString` (not among the sources): the
decimal strings of the identifiers, in order. -/
def intsToString (ids : Slice Int) : Slice String :=
  Slice.mk (ids.toList.map strconv.Itoa)

/-- The HTTP client of pulsegroup.go. Its `get(url, &p)` is not among the
sources, so the operations are verified against every client: `get` is given by
the value it leaves in `p` and the error it returns, once for a target of type
`[]PulseGroup` and once for `[]*PulseGroup`. -/
structure Client where
  rootURL : String
  get : String → Slice PulseGroup × Option Error
  getPtrs : String → Slice (Ptr PulseGroup) × Option Error

/-- The call log: the URLs requested so far, oldest first. -/
abbrev Log := List String

/-- Invocation `c.get(url, &p)` with `p` of type `[]PulseGroup`. -/
def Client.callGet (c : Client) (url : String) (log : Log) :
    (Slice PulseGroup × Option Error) × Log :=
  (c.get url, log ++ [url])

/-- Invocation `c.get(url, &p)` with `p` of type `[]*PulseGroup`. -/
def Client.callGetPtrs (c : Client) (url : String) (log : Log) :
    (Slice (Ptr PulseGroup) × Option Error) × Log :=
  (c.getPtrs url, log ++ [url])

/-- Method `Client.GetPulseGroup`. -/
def Client.GetPulseGroup (env : OptEnv) (c : Client) (id : Int)
    (opts : Slice (OptionFunc env)) : Outcome (Ptr PulseGroup) × Log :=
  let opt := applyOpts env opts
  let url0 := c.rootURL ++ "pulse_groups/" ++ strconv.Itoa id
  let url :=
    if opts.notNil then
      let values := env.Encode opt
      if values ≠ "" then url0 ++ ("?" ++ values) else url0
    else url0
  let r := c.callGet url []
  match r.1.2 with
  | some err => (Outcome.ret none (some err), r.2)
  | none =>
    match r.1.1.index 0 with
    | some p => (Outcome.ret (some p) none, r.2)
    | none => (Outcome.panic, r.2)

/-- Method `Client.GetPulseGroups`. -/
def Client.GetPulseGroups (env : OptEnv) (c : Client) (ids : Slice Int)
    (opts : Slice (OptionFunc env)) : (Slice (Ptr PulseGroup) × Option Error) × Log :=
  let opt := applyOpts env opts
  let str := intsToString ids
  let url0 := c.rootURL ++ "pulse_groups/" ++ strings.Join str ","
  let url :=
    if opts.notNil then
      let values := env.Encode opt
      if values ≠ "" then url0 ++ ("?" ++ values) else url0
    else url0
  let r := c.callGetPtrs url []
  match r.1.2 with
  | some err => ((Slice.nil, some err), r.2)
  | none => ((r.1.1, none), r.2)

/-- Method `Client.SearchPulseGroups`. -/
def Client.SearchPulseGroups (env : OptEnv) (c : Client) (qry : String)
    (opts : Slice (OptionFunc env)) : (Slice (Ptr PulseGroup) × Option Error) × Log :=
  let opt := applyOpts env opts
  let url0 := c.rootURL ++ "pulse_groups/?search=" ++ qry
  let url :=
    if opts.notNil then
      let values := env.Encode opt
      if values ≠ "" then url0 ++ ("&" ++ values) else url0
    else url0
  let r := c.callGetPtrs url []
  match r.1.2 with
  | some err => ((Slice.nil, some err), r.2)
  | none => ((r.1.1, none), r.2)

/-- An option container for the examples: the accumulated key and value pairs,
encoded as `k=v` joined by `&`. -/
def listEnv : OptEnv :=
  { options := List (String × String),
    newOpt := [],
    Encode := fun kvs => String.intercalate "&" (kvs.map fun kv => kv.1 ++ "=" ++ kv.2) }

/-- An option of `listEnv` that sets one parameter. -/
def setParam (k v : String) : OptionFunc listEnv :=
  fun (opt : List (String × String)) => opt ++ [(k, v)]

/-- A record used by the examples. -/
def samplePulse : PulseGroup :=
  { ID := 7, Name := "pulse", Slug := "pulse", URL := "", CreatedAt := 0, UpdatedAt := 0,
    Tags := Slice.nil, Pulses := Slice.nil, Game := Slice.nil }

/-- A client that answers every request with one record. -/
def okClient : Client :=
  { rootURL := "https://api/",
    get := fun _ => (Slice.mk [samplePulse], none),
    getPtrs := fun _ => (Slice.mk [some samplePulse], none) }

/-- A client whose every request fails with the given error. -/
def failClient (e : Error) : Client :=
  { rootURL := "https://api/",
    get := fun _ => (Slice.nil, some e),
    getPtrs := fun _ => (Slice.nil, some e) }

end pulsegroup

end igdb

/-! ## Auxiliary facts -/

namespace igdb

theorem Slice.toList_append {α : Type} (s : Slice α) (x : α) :
    (s.append x).toList = s.toList ++ [x] := rfl

theorem Slice.len_pos_iff {α : Type} (s : Slice α) : 0 < s.len ↔ s.toList ≠ [] := by
  unfold Slice.len
  exact List.length_pos

theorem Error.Cause_ne_withMessage (e c : Error) (m : String) :
    e.Cause ≠ Error.withMessage c m := by
  induction e with
  | withMessage c0 m0 ih => simpa [Error.Cause] using ih
  | _ => simp [Error.Cause]

theorem Error.Cause_eq_self_iff (e : Error) :
    e.Cause = e ↔ ∀ c m, e ≠ Error.withMessage c m := by
  constructor
  · intro h c m hc
    exact Error.Cause_ne_withMessage e c m (h.trans hc)
  · intro h
    cases e with
    | withMessage c m => exact absurd rfl (h c m)
    | _ => rfl

theorem errors.Cause_Wrap (e : Error) (message : String) :
    errors.Cause (errors.Wrap (some e) message) = errors.Cause (some e) := rfl

theorem sliceconv.Itoa_fold (l : List Int) (acc : Slice String) (h : l ≠ []) :
    l.foldl (fun str i => str.append (strconv.Itoa i)) acc
      = Slice.mk (acc.toList ++ l.map strconv.Itoa) := by
  induction l generalizing acc with
  | nil => exact absurd rfl h
  | cons a t ih =>
    cases t with
    | nil => simp [Slice.append]
    | cons b t2 =>
      have h2 := ih (acc.append (strconv.Itoa a)) (by simp)
      simp only [List.foldl_cons] at h2 ⊢
      rw [h2]
      simp [Slice.toList_append]

theorem sliceconv.Itoa_of_nonempty (ids : Slice Int) (h : 0 < ids.len) :
    sliceconv.Itoa ids = Slice.mk (ids.toList.map strconv.Itoa) := by
  unfold sliceconv.Itoa
  rw [sliceconv.Itoa_fold _ _ ((Slice.len_pos_iff ids).1 h)]
  simp [Slice.toList]

namespace testdummy

theorem hasNegative_iff (l : List Int) : hasNegative l = true ↔ ∃ id ∈ l, id < 0 := by
  induction l with
  | nil => simp [hasNegative]
  | cons a t ih =>
    unfold hasNegative
    by_cases ha : a < 0
    · simp [ha]
    · simp [ha, ih]

theorem hasNegative_false_of_nonneg (l : List Int) (h : ∀ id ∈ l, 0 ≤ id) :
    hasNegative l = false := by
  cases hn : hasNegative l with
  | false => rfl
  | true =>
    obtain ⟨id, hmem, hlt⟩ := (hasNegative_iff l).1 hn
    exact absurd (h id hmem) (not_le.2 hlt)

end testdummy

end igdb

/-! ## TestDummyService: input validation -/

namespace igdb.testdummy

/-- C1: for every negative id and every option list, `Get` returns a nil record
together with exactly the sentinel `ErrNegativeID`, not wrapped, and the call
log is empty: the client is never invoked. -/
theorem Get_negative_id (ts : service) (id : Int) (opts : Slice FuncOption) (h : id < 0) :
    TestDummyService.Get ts id opts
      = (Outcome.ret none (some Error.ErrNegativeID), []) := by
  simp [TestDummyService.Get, h]

theorem Get_negative_id_witness :
    (-1 : Int) < 0 ∧
    TestDummyService.Get ⟨okClient, "test_dummies/"⟩ (-1) (Slice.mk [FuncOption.SetLimit 5])
      = (Outcome.ret none (some Error.ErrNegativeID), []) :=
  ⟨by decide, Get_negative_id _ _ _ (by decide)⟩

/-- C2: for every id list of length 0, the nil slice as well as the empty
non-nil one, and every option list, `List` returns a nil result together with
exactly the sentinel `ErrEmptyIDs`, and the client is never invoked. -/
theorem List_empty_ids (ts : service) (ids : Slice Int) (opts : Slice FuncOption)
    (h : ids.len = 0) :
    TestDummyService.List ts ids opts = ((Slice.nil, some Error.ErrEmptyIDs), []) := by
  simp [TestDummyService.List, h]

theorem List_empty_ids_witness :
    ((Slice.nil : Slice Int).len = 0 ∧
      TestDummyService.List ⟨okClient, "test_dummies/"⟩ Slice.nil Slice.nil
        = ((Slice.nil, some Error.ErrEmptyIDs), [])) ∧
    ((Slice.mk [] : Slice Int).len = 0 ∧
      TestDummyService.List ⟨okClient, "test_dummies/"⟩ (Slice.mk []) Slice.nil
        = ((Slice.nil, some Error.ErrEmptyIDs), [])) :=
  ⟨⟨rfl, List_empty_ids _ _ _ rfl⟩, ⟨rfl, List_empty_ids _ _ _ rfl⟩⟩

/-- C3: for every id list with a negative element at any position (such a list
is non-empty) and every option list, `List` returns a nil result together with
exactly the sentinel `ErrNegativeID` and the client is never invoked; and the
call log of `List` is non-empty exactly when the id list is non-empty and every
element is at least 0. -/
theorem List_negative_id (ts : service) (ids : Slice Int) (opts : Slice FuncOption) :
    ((∃ id ∈ ids.toList, id < 0) →
      TestDummyService.List ts ids opts = ((Slice.nil, some Error.ErrNegativeID), [])) ∧
    ((TestDummyService.List ts ids opts).2 ≠ [] ↔
      (0 < ids.len ∧ ∀ id ∈ ids.toList, 0 ≤ id)) := by
  constructor
  · intro hneg
    have hn : hasNegative ids.toList = true := (hasNegative_iff _).2 hneg
    have hlen : ¬ ids.len < 1 := by
      obtain ⟨id, hmem, _⟩ := hneg
      have : 0 < ids.len := List.length_pos_of_mem hmem
      omega
    simp [TestDummyService.List, hlen, hn]
  · by_cases hlen : ids.len < 1
    · have h0 : ¬ 0 < ids.len := by omega
      simp [TestDummyService.List, hlen, h0]
    · have hpos : 0 < ids.len := by omega
      cases hn : hasNegative ids.toList with
      | true =>
        obtain ⟨id, hmem, hlt⟩ := (hasNegative_iff _).1 hn
        have hex : ¬ ∀ id ∈ ids.toList, 0 ≤ id := fun hall =>
          absurd (hall id hmem) (not_le.2 hlt)
        simp [TestDummyService.List, hlen, hn, hex]
      | false =>
        have hall : ∀ id ∈ ids.toList, 0 ≤ id := by
          intro id hmem
          by_contra hc
          have : hasNegative ids.toList = true :=
            (hasNegative_iff _).2 ⟨id, hmem, not_le.1 hc⟩
          rw [hn] at this
          exact Bool.noConfusion this
        refine ⟨fun _ => ⟨hpos, hall⟩, fun _ => ?_⟩
        simp only [TestDummyService.List, hlen, hn, Client.callGet]
        cases (ts.client.get ts.end_ (opts.append (FuncOption.SetFilter "id"
          operator.OpContainsAtLeast (sliceconv.Itoa ids)))).2 <;> simp

theorem List_negative_id_witness :
    TestDummyService.List ⟨okClient, "test_dummies/"⟩ (Slice.mk [96, 74, -500]) Slice.nil
      = ((Slice.nil, some Error.ErrNegativeID), []) ∧
    (TestDummyService.List ⟨okClient, "test_dummies/"⟩ (Slice.mk [96, 74]) Slice.nil).2 ≠ [] :=
  ⟨(List_negative_id ⟨okClient, "test_dummies/"⟩ (Slice.mk [96, 74, -500]) Slice.nil).1
      ⟨-500, by decide, by decide⟩,
    (List_negative_id ⟨okClient, "test_dummies/"⟩ (Slice.mk [96, 74]) Slice.nil).2.2
      ⟨by decide, by decide⟩⟩

end igdb.testdummy

/-! ## TestDummyService: what reaches the client and what comes back -/

namespace igdb.testdummy

/-- C6 (as stated, at a concrete input): the client fails with an error that is
itself annotated, `ErrNoResults` wrapped with a message. `Get` returns the nil
record and one more annotation around it; the root cause of the returned error
is `ErrNoResults`, which is not the error the client returned. -/
theorem Get_cause_of_wrapped_error :
    TestDummyService.Get
        ⟨failClient (Error.withMessage Error.ErrNoResults "cannot make request"),
          "test_dummies/"⟩ 8 Slice.nil
      = (Outcome.ret none
          (some (Error.withMessage
            (Error.withMessage Error.ErrNoResults "cannot make request")
            "cannot get TestDummy with ID 8")),
         [Call.get "test_dummies/"
           (Slice.mk [FuncOption.SetFilter "id" operator.OpEquals (Slice.mk ["8"])])]) ∧
    errors.Cause
        (some (Error.withMessage
          (Error.withMessage Error.ErrNoResults "cannot make request")
          "cannot get TestDummy with ID 8"))
      = some Error.ErrNoResults ∧
    some Error.ErrNoResults
      ≠ some (Error.withMessage Error.ErrNoResults "cannot make request") := by
  decide

/-- C6 (amended): for every valid input and every error `e` returned by the
client, each of `Get`, `List`, `Index`, `Count` and `Fields` returns the zero
result (nil record, nil list, count 0, nil field list) and an error whose root
cause is the root cause of `e`, after exactly one client call; and the root
cause of `e` is `e` itself exactly when `e` is not an annotated error. -/
theorem service_error_keeps_root_cause (ts : service) (id : Int) (ids : Slice Int)
    (opts : Slice FuncOption) (e : Error)
    (hid : 0 ≤ id) (hlen : 0 < ids.len) (hids : ∀ i ∈ ids.toList, 0 ≤ i) :
    ((ts.client.get ts.end_ (opts.append
        (FuncOption.SetFilter "id" operator.OpEquals (Slice.mk [strconv.Itoa id])))).2 = some e →
      ∃ w, TestDummyService.Get ts id opts
          = (Outcome.ret none (some w), [Call.get ts.end_ (opts.append
              (FuncOption.SetFilter "id" operator.OpEquals (Slice.mk [strconv.Itoa id])))]) ∧
        errors.Cause (some w) = errors.Cause (some e)) ∧
    ((ts.client.get ts.end_ (opts.append
        (FuncOption.SetFilter "id" operator.OpContainsAtLeast (sliceconv.Itoa ids)))).2 = some e →
      ∃ w, TestDummyService.List ts ids opts
          = ((Slice.nil, some w), [Call.get ts.end_ (opts.append
              (FuncOption.SetFilter "id" operator.OpContainsAtLeast (sliceconv.Itoa ids)))]) ∧
        errors.Cause (some w) = errors.Cause (some e)) ∧
    ((ts.client.get ts.end_ opts).2 = some e →
      ∃ w, TestDummyService.Index ts opts = ((Slice.nil, some w), [Call.get ts.end_ opts]) ∧
        errors.Cause (some w) = errors.Cause (some e)) ∧
    ((ts.client.getCount ts.end_ opts).2 = some e →
      ∃ w, TestDummyService.Count ts opts = ((0, some w), [Call.getCount ts.end_ opts]) ∧
        errors.Cause (some w) = errors.Cause (some e)) ∧
    ((ts.client.getFields ts.end_).2 = some e →
      ∃ w, TestDummyService.Fields ts = ((Slice.nil, some w), [Call.getFields ts.end_]) ∧
        errors.Cause (some w) = errors.Cause (some e)) ∧
    (errors.Cause (some e) = some e ↔ ∀ c m, e ≠ Error.withMessage c m) := by
  have hid' : ¬ id < 0 := not_lt.2 hid
  have hlen' : ¬ ids.len < 1 := by omega
  have hneg : hasNegative ids.toList = false := hasNegative_false_of_nonneg _ hids
  refine ⟨?_, ?_, ?_, ?_, ?_, ?_⟩
  · intro h
    exact ⟨Error.withMessage e ("cannot get TestDummy with ID " ++ strconv.Itoa id),
      by simp [TestDummyService.Get, hid', Client.callGet, h, errors.Wrap], rfl⟩
  · intro h
    exact ⟨Error.withMessage e ("cannot get TestDummies with IDs " ++ fmtInts ids),
      by simp [TestDummyService.List, hlen', hneg, Client.callGet, h, errors.Wrap], rfl⟩
  · intro h
    exact ⟨Error.withMessage e "cannot get index of TestDummies",
      by simp [TestDummyService.Index, Client.callGet, h, errors.Wrap], rfl⟩
  · intro h
    exact ⟨Error.withMessage e "cannot count TestDummies",
      by simp [TestDummyService.Count, Client.callGetCount, h, errors.Wrap], rfl⟩
  · intro h
    exact ⟨Error.withMessage e "cannot get TestDummy fields",
      by simp [TestDummyService.Fields, Client.callGetFields, h, errors.Wrap], rfl⟩
  · simp only [errors.Cause, Option.map_some', Option.some.injEq]
    exact Error.Cause_eq_self_iff e

end igdb.testdummy

namespace igdb.testdummy

theorem service_error_keeps_root_cause_witness :
    (∃ w, TestDummyService.Get ⟨failClient Error.ErrNoResults, "test_dummies/"⟩ 8 Slice.nil
        = (Outcome.ret none (some w), [Call.get "test_dummies/" (Slice.nil.append
            (FuncOption.SetFilter "id" operator.OpEquals (Slice.mk [strconv.Itoa 8])))]) ∧
      errors.Cause (some w) = errors.Cause (some Error.ErrNoResults)) ∧
    (∃ w, TestDummyService.Count ⟨failClient Error.ErrNoResults, "test_dummies/"⟩ Slice.nil
        = ((0, some w), [Call.getCount "test_dummies/" Slice.nil]) ∧
      errors.Cause (some w) = errors.Cause (some Error.ErrNoResults)) ∧
    errors.Cause (some Error.ErrNoResults) = some Error.ErrNoResults :=
  have h := service_error_keeps_root_cause ⟨failClient Error.ErrNoResults, "test_dummies/"⟩
    8 (Slice.mk [96, 74]) Slice.nil Error.ErrNoResults (by decide) (by decide) (by decide)
  ⟨h.1 rfl, h.2.2.2.1 rfl, rfl⟩

/-- C8: whenever the client call succeeds the service returns what was decoded,
with a nil error. For id at least 0 and a non-empty decoded list `r`, position 0
of `r` is in range and `Get` returns that first record; for valid ids `List`
returns `r` itself; `Index` returns `r` itself; `Count` returns the decoded
count; `Fields` returns the decoded field list. -/
theorem service_returns_decoded (ts : service) (id : Int) (ids : Slice Int)
    (opts : Slice FuncOption)
    (hid : 0 ≤ id) (hlen : 0 < ids.len) (hids : ∀ i ∈ ids.toList, 0 ≤ i) :
    (∀ r, ts.client.get ts.end_ (opts.append
          (FuncOption.SetFilter "id" operator.OpEquals (Slice.mk [strconv.Itoa id])))
          = (r, none) → 0 < r.len →
      ∃ p, r.index 0 = some p ∧ r.toList.head? = some p ∧
        (TestDummyService.Get ts id opts).1 = Outcome.ret p none) ∧
    (∀ r, ts.client.get ts.end_ (opts.append
          (FuncOption.SetFilter "id" operator.OpContainsAtLeast (sliceconv.Itoa ids)))
          = (r, none) →
      (TestDummyService.List ts ids opts).1 = (r, none)) ∧
    (∀ r, ts.client.get ts.end_ opts = (r, none) →
      (TestDummyService.Index ts opts).1 = (r, none)) ∧
    (∀ n, ts.client.getCount ts.end_ opts = (n, none) →
      (TestDummyService.Count ts opts).1 = (n, none)) ∧
    (∀ f, ts.client.getFields ts.end_ = (f, none) →
      (TestDummyService.Fields ts).1 = (f, none)) := by
  have hid' : ¬ id < 0 := not_lt.2 hid
  have hlen' : ¬ ids.len < 1 := by omega
  have hneg : hasNegative ids.toList = false := hasNegative_false_of_nonneg _ hids
  refine ⟨?_, ?_, ?_, ?_, ?_⟩
  · intro r h hr
    cases hl : r.toList with
    | nil => simp [Slice.len, hl] at hr
    | cons p t =>
      refine ⟨p, by simp [Slice.index, hl], by simp, ?_⟩
      simp [TestDummyService.Get, hid', Client.callGet, h, Slice.index, hl]
  · intro r h
    simp [TestDummyService.List, hlen', hneg, Client.callGet, h]
  · intro r h
    simp [TestDummyService.Index, Client.callGet, h]
  · intro n h
    simp [TestDummyService.Count, Client.callGetCount, h]
  · intro f h
    simp [TestDummyService.Fields, Client.callGetFields, h]

theorem service_returns_decoded_witness :
    (∃ p, (Slice.mk [some sampleDummy]).index 0 = some p ∧
      (Slice.mk [some sampleDummy]).toList.head? = some p ∧
      (TestDummyService.Get ⟨okClient, "test_dummies/"⟩ 8 Slice.nil).1 = Outcome.ret p none) ∧
    (TestDummyService.List ⟨okClient, "test_dummies/"⟩ (Slice.mk [96, 74]) Slice.nil).1
      = (Slice.mk [some sampleDummy], none) ∧
    (TestDummyService.Count ⟨okClient, "test_dummies/"⟩ Slice.nil).1 = (100, none) ∧
    (TestDummyService.Fields ⟨okClient, "test_dummies/"⟩).1
      = (Slice.mk ["name", "slug", "url"], none) :=
  have h := service_returns_decoded ⟨okClient, "test_dummies/"⟩ 8 (Slice.mk [96, 74])
    Slice.nil (by decide) (by decide) (by decide)
  ⟨h.1 _ rfl (by decide), h.2.1 _ rfl, h.2.2.2.1 _ rfl, h.2.2.2.2 _ rfl⟩

/-- C9: for every id at least 0, `Get` invokes the client's `get` exactly once,
on the service's endpoint, with the caller's options in order followed by the
one filter `SetFilter("id", OpEquals, decimal(id))`; for every non-empty id list
without negative element, `List` invokes it exactly once with the caller's
options followed by the one filter `SetFilter("id", OpContainsAtLeast, s)`, `s`
being the decimal strings of the ids in the same order (hence of the same
length); `Index` invokes it exactly once with the options unchanged. -/
theorem service_request_options (ts : service) (id : Int) (ids : Slice Int)
    (opts : Slice FuncOption)
    (hid : 0 ≤ id) (hlen : 0 < ids.len) (hids : ∀ i ∈ ids.toList, 0 ≤ i) :
    (TestDummyService.Get ts id opts).2
      = [Call.get ts.end_ (Slice.mk (opts.toList ++
          [FuncOption.SetFilter "id" operator.OpEquals (Slice.mk [strconv.Itoa id])]))] ∧
    (TestDummyService.List ts ids opts).2
      = [Call.get ts.end_ (Slice.mk (opts.toList ++
          [FuncOption.SetFilter "id" operator.OpContainsAtLeast
            (Slice.mk (ids.toList.map strconv.Itoa))]))] ∧
    (ids.toList.map strconv.Itoa).length = ids.len ∧
    (TestDummyService.Index ts opts).2 = [Call.get ts.end_ opts] := by
  have hid' : ¬ id < 0 := not_lt.2 hid
  have hlen' : ¬ ids.len < 1 := by omega
  have hneg : hasNegative ids.toList = false := hasNegative_false_of_nonneg _ hids
  refine ⟨?_, ?_, by simp [Slice.len], ?_⟩
  · simp only [TestDummyService.Get, hid', if_false, Client.callGet, Slice.append]
    cases (ts.client.get ts.end_ (Slice.mk (opts.toList ++
        [FuncOption.SetFilter "id" operator.OpEquals (Slice.mk [strconv.Itoa id])]))) with
    | mk r err =>
      cases err with
      | some e => simp
      | none => cases r.index 0 <;> simp
  · simp only [TestDummyService.List, hlen', hneg, if_false, Client.callGet, Slice.append,
      sliceconv.Itoa_of_nonempty ids hlen]
    cases (ts.client.get ts.end_ (Slice.mk (opts.toList ++
        [FuncOption.SetFilter "id" operator.OpContainsAtLeast
          (Slice.mk (ids.toList.map strconv.Itoa))]))).2 <;> simp
  · simp only [TestDummyService.Index, Client.callGet]
    cases (ts.client.get ts.end_ opts).2 <;> simp

theorem service_request_options_witness :
    (TestDummyService.Get ⟨okClient, "test_dummies/"⟩ 8 (Slice.mk [FuncOption.SetLimit 5])).2
      = [Call.get "test_dummies/" (Slice.mk [FuncOption.SetLimit 5,
          FuncOption.SetFilter "id" operator.OpEquals (Slice.mk ["8"])])] ∧
    (TestDummyService.List ⟨okClient, "test_dummies/"⟩ (Slice.mk [96, 74, 133])
        (Slice.mk [FuncOption.SetLimit 5])).2
      = [Call.get "test_dummies/" (Slice.mk [FuncOption.SetLimit 5,
          FuncOption.SetFilter "id" operator.OpContainsAtLeast
            (Slice.mk ["96", "74", "133"])])] :=
  have h := service_request_options ⟨okClient, "test_dummies/"⟩ 8 (Slice.mk [96, 74, 133])
    (Slice.mk [FuncOption.SetLimit 5]) (by decide) (by decide) (by decide)
  ⟨h.1, h.2.1⟩

end igdb.testdummy

/-! ## The client pipeline of the spec under the services -/

namespace igdb.testdummy

theorem Remote.outOfRange_append (r : Remote) (opts : Slice FuncOption) (x : FuncOption)
    (h : ∃ o ∈ opts.toList, r.outOfRange o = true) :
    ∃ o ∈ (opts.append x).toList, r.outOfRange o = true := by
  obtain ⟨o, hmem, ho⟩ := h
  exact ⟨o, by simp [Slice.toList_append, hmem], ho⟩

/-- C7: with the client pipeline of the spec under the service, for every list
of options that contains an out-of-range pagination option and for every body
the server sends, `Get` (id at least 0), `List` (valid ids), `Index` and `Count`
return the zero result and `ErrOutOfRange` under the service's annotation, whose
root cause is `ErrOutOfRange`; the results named here do not mention the
response bodies. -/
theorem out_of_range_option_rejected (r : Remote) (e : endpoint) (id : Int)
    (ids : Slice Int) (opts : Slice FuncOption)
    (hid : 0 ≤ id) (hlen : 0 < ids.len) (hids : ∀ i ∈ ids.toList, 0 ≤ i)
    (hopt : ∃ o ∈ opts.toList, r.outOfRange o = true) :
    (TestDummyService.Get ⟨r.client, e⟩ id opts).1
      = Outcome.ret none (some (Error.withMessage Error.ErrOutOfRange
          ("cannot get TestDummy with ID " ++ strconv.Itoa id))) ∧
    (TestDummyService.List ⟨r.client, e⟩ ids opts).1
      = (Slice.nil, some (Error.withMessage Error.ErrOutOfRange
          ("cannot get TestDummies with IDs " ++ fmtInts ids))) ∧
    (TestDummyService.Index ⟨r.client, e⟩ opts).1
      = (Slice.nil, some (Error.withMessage Error.ErrOutOfRange
          "cannot get index of TestDummies")) ∧
    (TestDummyService.Count ⟨r.client, e⟩ opts).1
      = (0, some (Error.withMessage Error.ErrOutOfRange "cannot count TestDummies")) ∧
    ∀ msg, errors.Cause (some (Error.withMessage Error.ErrOutOfRange msg))
      = some Error.ErrOutOfRange := by
  have hid' : ¬ id < 0 := not_lt.2 hid
  have hlen' : ¬ ids.len < 1 := by omega
  have hneg : hasNegative ids.toList = false := hasNegative_false_of_nonneg _ hids
  refine ⟨?_, ?_, ?_, ?_, fun _ => rfl⟩
  · have h1 := Remote.outOfRange_append r opts
      (FuncOption.SetFilter "id" operator.OpEquals (Slice.mk [strconv.Itoa id])) hopt
    simp [TestDummyService.Get, hid', Client.callGet, Remote.client, h1, errors.Wrap]
  · have h1 := Remote.outOfRange_append r opts
      (FuncOption.SetFilter "id" operator.OpContainsAtLeast (sliceconv.Itoa ids)) hopt
    simp [TestDummyService.List, hlen', hneg, Client.callGet, Remote.client, h1, errors.Wrap]
  · simp [TestDummyService.Index, Client.callGet, Remote.client, hopt, errors.Wrap]
  · simp [TestDummyService.Count, Client.callGetCount, Remote.client, hopt, errors.Wrap]

theorem out_of_range_option_rejected_witness :
    (sampleRemote (Body.payload [some sampleDummy]) (Body.payload 100)).outOfRange
        (FuncOption.SetOffset 99999) = true ∧
    (TestDummyService.Get
        ⟨(sampleRemote (Body.payload [some sampleDummy]) (Body.payload 100)).client,
          "test_dummies/"⟩ 8
        (Slice.mk [FuncOption.SetFields (Slice.mk ["name"]), FuncOption.SetOffset 99999])).1
      = Outcome.ret none (some (Error.withMessage Error.ErrOutOfRange
          ("cannot get TestDummy with ID " ++ strconv.Itoa 8))) ∧
    (TestDummyService.Count
        ⟨(sampleRemote (Body.payload [some sampleDummy]) (Body.payload 100)).client,
          "test_dummies/"⟩
        (Slice.mk [FuncOption.SetFields (Slice.mk ["name"]), FuncOption.SetOffset 99999])).1
      = (0, some (Error.withMessage Error.ErrOutOfRange "cannot count TestDummies")) :=
  have h := out_of_range_option_rejected
    (sampleRemote (Body.payload [some sampleDummy]) (Body.payload 100)) "test_dummies/" 8
    (Slice.mk [96, 74])
    (Slice.mk [FuncOption.SetFields (Slice.mk ["name"]), FuncOption.SetOffset 99999])
    (by decide) (by decide) (by decide) ⟨FuncOption.SetOffset 99999, by decide, by decide⟩
  ⟨by decide, h.1, h.2.2.2.1⟩

end igdb.testdummy

/-! ## pulsegroup.go: no input validation, and the requested URL -/

namespace igdb.pulsegroup

theorem Slice.notNil_of_len_pos {α : Type} (s : Slice α) (h : 0 < s.len) :
    s.notNil = true := by
  cases s with
  | nil => simp [Slice.len, Slice.toList] at h
  | mk xs => rfl

theorem applyOpts_of_len_zero (env : OptEnv) (opts : Slice (OptionFunc env))
    (h : ¬ 0 < opts.len) : applyOpts env opts = env.newOpt := by
  have hl : opts.toList = [] := by
    have : opts.toList.length = 0 := by simpa [Slice.len] using h
    exact List.length_eq_zero.1 this
  simp [applyOpts, hl]

theorem intsToString_join (ids : Slice Int) :
    strings.Join (intsToString ids) "," = String.intercalate "," (ids.toList.map strconv.Itoa) :=
  rfl

/-- The URL built by the three operations from the part before the options
`url0` and the separator `sep`, in terms of the number of options passed. -/
theorem url_with_options (env : OptEnv) (opts : Slice (OptionFunc env)) (url0 sep : String)
    (hnew : env.Encode env.newOpt = "") :
    (if opts.notNil = true then
        (if env.Encode (applyOpts env opts) ≠ "" then
          url0 ++ (sep ++ env.Encode (applyOpts env opts)) else url0)
      else url0)
      = (if 0 < opts.len ∧ env.Encode (applyOpts env opts) ≠ "" then
          url0 ++ sep ++ env.Encode (applyOpts env opts) else url0) := by
  by_cases hlen : 0 < opts.len
  · simp [Slice.notNil_of_len_pos opts hlen, hlen, String.append_assoc]
  · have hv : env.Encode (applyOpts env opts) = "" := by
      rw [applyOpts_of_len_zero env opts hlen]
      exact hnew
    simp [hlen, hv]

/-- C4 (as stated, at a concrete input): for the id -1 and no options,
`GetPulseGroup` requests the pulse group of id -1 from the client and returns the
record the client decoded together with a nil error. -/
theorem GetPulseGroup_negative_id_reaches_client :
    Client.GetPulseGroup listEnv okClient (-1) Slice.nil
      = (Outcome.ret (some samplePulse) none, ["https://api/pulse_groups/-1"]) := by
  decide

/-- C4 (amended): for every id, the negative ones included, and every list of
options, `GetPulseGroup` does not check the identifier: it invokes the client's
`get` exactly once, on the root URL followed by `pulse_groups/`, the decimal id
and the query string of the options; it returns a nil record and an error
exactly when that call returns an error, and then that same error. -/
theorem GetPulseGroup_no_id_check (env : OptEnv) (c : Client) (id : Int)
    (opts : Slice (OptionFunc env)) :
    ∃ url,
      url = (if opts.notNil = true ∧ env.Encode (applyOpts env opts) ≠ "" then
          c.rootURL ++ "pulse_groups/" ++ strconv.Itoa id ++ "?"
            ++ env.Encode (applyOpts env opts)
        else c.rootURL ++ "pulse_groups/" ++ strconv.Itoa id) ∧
      (Client.GetPulseGroup env c id opts).2 = [url] ∧
      (∀ e, (c.get url).2 = some e →
        (Client.GetPulseGroup env c id opts).1 = Outcome.ret none (some e)) ∧
      (∀ p, (c.get url).2 = none → (c.get url).1.index 0 = some p →
        (Client.GetPulseGroup env c id opts).1 = Outcome.ret (some p) none) ∧
      ((c.get url).2 = none → (c.get url).1.index 0 = none →
        (Client.GetPulseGroup env c id opts).1 = Outcome.panic) := by
  have hurl : (if opts.notNil = true then
        (if env.Encode (applyOpts env opts) ≠ "" then
          c.rootURL ++ "pulse_groups/" ++ strconv.Itoa id
            ++ ("?" ++ env.Encode (applyOpts env opts))
          else c.rootURL ++ "pulse_groups/" ++ strconv.Itoa id)
      else c.rootURL ++ "pulse_groups/" ++ strconv.Itoa id)
      = (if opts.notNil = true ∧ env.Encode (applyOpts env opts) ≠ "" then
          c.rootURL ++ "pulse_groups/" ++ strconv.Itoa id ++ "?"
            ++ env.Encode (applyOpts env opts)
        else c.rootURL ++ "pulse_groups/" ++ strconv.Itoa id) := by
    by_cases h1 : opts.notNil = true <;>
      by_cases h2 : env.Encode (applyOpts env opts) = "" <;>
      simp [h1, h2, String.append_assoc]
  refine ⟨_, rfl, ?_, ?_, ?_, ?_⟩
  · simp only [Client.GetPulseGroup, Client.callGet, hurl]
    generalize c.get _ = r
    obtain ⟨r1, r2⟩ := r
    cases r2 with
    | some e => simp
    | none => cases r1.index 0 <;> simp
  · intro e he
    simp only [Client.GetPulseGroup, Client.callGet, hurl]
    simp [he]
  · intro p he hp
    simp only [Client.GetPulseGroup, Client.callGet, hurl]
    simp [he, hp]
  · intro he hp
    simp only [Client.GetPulseGroup, Client.callGet, hurl]
    simp [he, hp]

theorem GetPulseGroup_no_id_check_witness :
    (Client.GetPulseGroup listEnv (failClient Error.ErrNoResults) (-5)
        (Slice.mk [setParam "fields" "name"])).2
      = ["https://api/pulse_groups/-5?fields=name"] ∧
    (Client.GetPulseGroup listEnv (failClient Error.ErrNoResults) (-5)
        (Slice.mk [setParam "fields" "name"])).1
      = Outcome.ret none (some Error.ErrNoResults) := by
  obtain ⟨url, hu, hlog, herr, _, _⟩ := GetPulseGroup_no_id_check listEnv
    (failClient Error.ErrNoResults) (-5) (Slice.mk [setParam "fields" "name"])
  have hu2 : url = "https://api/pulse_groups/-5?fields=name" := by
    rw [hu]; decide
  subst hu2
  exact ⟨hlog, herr Error.ErrNoResults rfl⟩

end igdb.pulsegroup

namespace igdb.pulsegroup

theorem join_of_len_zero (ids : Slice Int) (h : ids.len = 0) :
    strings.Join (intsToString ids) "," = "" := by
  have hl : ids.toList = [] := List.length_eq_zero.1 (by simpa [Slice.len] using h)
  rw [intsToString_join, hl]
  rfl

theorem url_notNil_and (env : OptEnv) (opts : Slice (OptionFunc env)) (url0 sep : String) :
    (if opts.notNil = true then
        (if env.Encode (applyOpts env opts) ≠ "" then
          url0 ++ (sep ++ env.Encode (applyOpts env opts)) else url0)
      else url0)
      = (if opts.notNil = true ∧ env.Encode (applyOpts env opts) ≠ "" then
          url0 ++ sep ++ env.Encode (applyOpts env opts) else url0) := by
  by_cases h1 : opts.notNil = true <;>
    by_cases h2 : env.Encode (applyOpts env opts) = "" <;>
    simp [h1, h2, String.append_assoc]

/-- C5 (as stated, at a concrete input): for the nil id list and no options,
`GetPulseGroups` requests the bare `pulse_groups/` URL from the client and
returns the records the client decoded together with a nil error. -/
theorem GetPulseGroups_empty_ids_reaches_client :
    Client.GetPulseGroups listEnv okClient Slice.nil Slice.nil
      = ((Slice.mk [some samplePulse], none), ["https://api/pulse_groups/"]) := by
  decide

/-- C5 (amended): for every id list of length 0, nil or empty, and every list
of options, `GetPulseGroups` does not reject the call itself: it invokes the
client's `get` exactly once, on the root URL followed by `pulse_groups/` and the
query string of the options; it returns a nil result and an error exactly when
that call returns an error, and then that same error; otherwise it returns what
the client decoded and a nil error. -/
theorem GetPulseGroups_no_ids_check (env : OptEnv) (c : Client) (ids : Slice Int)
    (opts : Slice (OptionFunc env)) (h : ids.len = 0) :
    ∃ url,
      url = (if opts.notNil = true ∧ env.Encode (applyOpts env opts) ≠ "" then
          c.rootURL ++ "pulse_groups/" ++ "?" ++ env.Encode (applyOpts env opts)
        else c.rootURL ++ "pulse_groups/") ∧
      (Client.GetPulseGroups env c ids opts).2 = [url] ∧
      (∀ e, (c.getPtrs url).2 = some e →
        (Client.GetPulseGroups env c ids opts).1 = (Slice.nil, some e)) ∧
      ((c.getPtrs url).2 = none →
        (Client.GetPulseGroups env c ids opts).1 = ((c.getPtrs url).1, none)) := by
  have hurl := url_notNil_and env opts (c.rootURL ++ "pulse_groups/") "?"
  refine ⟨_, rfl, ?_, ?_, ?_⟩
  · simp only [Client.GetPulseGroups, Client.callGetPtrs, join_of_len_zero ids h,
      String.append_empty, hurl]
    generalize c.getPtrs _ = r
    obtain ⟨r1, r2⟩ := r
    cases r2 <;> simp
  · intro e he
    simp only [Client.GetPulseGroups, Client.callGetPtrs, join_of_len_zero ids h,
      String.append_empty, hurl]
    simp [he]
  · intro he
    simp only [Client.GetPulseGroups, Client.callGetPtrs, join_of_len_zero ids h,
      String.append_empty, hurl]
    simp [he]

theorem GetPulseGroups_no_ids_check_witness :
    (Slice.mk [] : Slice Int).len = 0 ∧
    (Client.GetPulseGroups listEnv (failClient Error.ErrNoResults) (Slice.mk [])
        (Slice.mk [setParam "limit" "5"])).2
      = ["https://api/pulse_groups/?limit=5"] ∧
    (Client.GetPulseGroups listEnv (failClient Error.ErrNoResults) (Slice.mk [])
        (Slice.mk [setParam "limit" "5"])).1
      = (Slice.nil, some Error.ErrNoResults) := by
  obtain ⟨url, hu, hlog, herr, _⟩ := GetPulseGroups_no_ids_check listEnv
    (failClient Error.ErrNoResults) (Slice.mk []) (Slice.mk [setParam "limit" "5"]) rfl
  have hu2 : url = "https://api/pulse_groups/?limit=5" := by
    rw [hu]; decide
  subst hu2
  exact ⟨rfl, hlog, herr Error.ErrNoResults rfl⟩

/-- C10: the URL requested by the pulse-group operations, the fresh option
container encoding to the empty string. `GetPulseGroup` requests the root URL
followed by `pulse_groups/` and the decimal id; `GetPulseGroups` the root URL
followed by `pulse_groups/` and the decimal ids joined by commas in the order
given; `SearchPulseGroups` the root URL followed by `pulse_groups/?search=` and
the query inserted verbatim. The encoded option string `v` is appended, after
`?` for the first two and after `&` for the search, if and only if at least one
option was passed and `v` is non-empty; otherwise nothing is appended. Each
operation makes exactly this one request. -/
theorem pulse_group_request_urls (env : OptEnv) (c : Client) (id : Int) (ids : Slice Int)
    (qry : String) (opts : Slice (OptionFunc env))
    (hnew : env.Encode env.newOpt = "") :
    (Client.GetPulseGroup env c id opts).2
      = [if 0 < opts.len ∧ env.Encode (applyOpts env opts) ≠ "" then
          c.rootURL ++ "pulse_groups/" ++ strconv.Itoa id ++ "?"
            ++ env.Encode (applyOpts env opts)
        else c.rootURL ++ "pulse_groups/" ++ strconv.Itoa id] ∧
    (Client.GetPulseGroups env c ids opts).2
      = [if 0 < opts.len ∧ env.Encode (applyOpts env opts) ≠ "" then
          c.rootURL ++ "pulse_groups/"
            ++ String.intercalate "," (ids.toList.map strconv.Itoa) ++ "?"
            ++ env.Encode (applyOpts env opts)
        else c.rootURL ++ "pulse_groups/"
            ++ String.intercalate "," (ids.toList.map strconv.Itoa)] ∧
    (Client.SearchPulseGroups env c qry opts).2
      = [if 0 < opts.len ∧ env.Encode (applyOpts env opts) ≠ "" then
          c.rootURL ++ "pulse_groups/?search=" ++ qry ++ "&"
            ++ env.Encode (applyOpts env opts)
        else c.rootURL ++ "pulse_groups/?search=" ++ qry] := by
  refine ⟨?_, ?_, ?_⟩
  · simp only [Client.GetPulseGroup, Client.callGet,
      url_with_options env opts (c.rootURL ++ "pulse_groups/" ++ strconv.Itoa id) "?" hnew]
    generalize c.get _ = r
    obtain ⟨r1, r2⟩ := r
    cases r2 with
    | some e => simp
    | none => cases r1.index 0 <;> simp
  · simp only [Client.GetPulseGroups, Client.callGetPtrs, intsToString_join,
      url_with_options env opts (c.rootURL ++ "pulse_groups/"
        ++ String.intercalate "," (ids.toList.map strconv.Itoa)) "?" hnew]
    generalize c.getPtrs _ = r
    obtain ⟨r1, r2⟩ := r
    cases r2 <;> simp
  · simp only [Client.SearchPulseGroups, Client.callGetPtrs,
      url_with_options env opts (c.rootURL ++ "pulse_groups/?search=" ++ qry) "&" hnew]
    generalize c.getPtrs _ = r
    obtain ⟨r1, r2⟩ := r
    cases r2 <;> simp

theorem pulse_group_request_urls_witness :
    listEnv.Encode listEnv.newOpt = "" ∧
    (Client.GetPulseGroup listEnv okClient 7 (Slice.mk [setParam "fields" "name"])).2
      = ["https://api/pulse_groups/7?fields=name"] ∧
    (Client.GetPulseGroups listEnv okClient (Slice.mk [3, 1, 2]) (Slice.mk [])).2
      = ["https://api/pulse_groups/3,1,2"] ∧
    (Client.SearchPulseGroups listEnv okClient "a b&c"
        (Slice.mk [setParam "limit" "5", setParam "offset" "2"])).2
      = ["https://api/pulse_groups/?search=a b&c&limit=5&offset=2"] := by
  have h1 := (pulse_group_request_urls listEnv okClient 7 Slice.nil ""
    (Slice.mk [setParam "fields" "name"]) rfl).1
  have h2 := (pulse_group_request_urls listEnv okClient 0 (Slice.mk [3, 1, 2]) ""
    (Slice.mk []) rfl).2.1
  have h3 := (pulse_group_request_urls listEnv okClient 0 Slice.nil "a b&c"
    (Slice.mk [setParam "limit" "5", setParam "offset" "2"]) rfl).2.2
  refine ⟨rfl, ?_, ?_, ?_⟩
  · rw [h1]; decide
  · rw [h2]; decide
  · rw [h3]; decide

end igdb.pulsegroup

/-! ## Indexing the decoded list in `Get` -/

namespace igdb.testdummy

/-- When the client's `get` reports success (a nil error) and leaves no record
in the decoded list, the index expression `dum[0]` of `Get` is out of range: the
call panics instead of returning, after the one client call. -/
theorem Get_panics_on_empty_success (ts : service) (id : Int) (opts : Slice FuncOption)
    (r : Slice (Ptr TestDummy)) (hid : 0 ≤ id) (hr : r.len = 0)
    (hget : ts.client.get ts.end_ (opts.append
      (FuncOption.SetFilter "id" operator.OpEquals (Slice.mk [strconv.Itoa id]))) = (r, none)) :
    TestDummyService.Get ts id opts
      = (Outcome.panic, [Call.get ts.end_ (opts.append
          (FuncOption.SetFilter "id" operator.OpEquals (Slice.mk [strconv.Itoa id])))]) := by
  have hid' : ¬ id < 0 := not_lt.2 hid
  have hl : r.toList = [] := List.length_eq_zero.1 (by simpa [Slice.len] using hr)
  simp [TestDummyService.Get, hid', Client.callGet, hget, Slice.index, hl]

theorem Get_panics_on_empty_success_witness :
    TestDummyService.Get
        ⟨{ get := fun _ _ => (Slice.mk [], none),
           getCount := fun _ _ => (0, none),
           getFields := fun _ => (Slice.nil, none) }, "test_dummies/"⟩ 8 Slice.nil
      = (Outcome.panic, [Call.get "test_dummies/" (Slice.nil.append
          (FuncOption.SetFilter "id" operator.OpEquals (Slice.mk [strconv.Itoa 8])))]) :=
  Get_panics_on_empty_success _ 8 Slice.nil (Slice.mk []) (by decide) rfl rfl

end igdb.testdummy
